import Mathlib

/-!
Verification of the `dissolve` crate's text-extraction sink (`src/lib.rs`).

The crate implements `html5ever`'s `TreeSink` trait on a struct `TextOnly`
holding a single growable text buffer; node handles are `Rc<Node>` values
carrying a `NodeData` variant. We shallow-embed the sink as a state
`TextOnly` consisting of the text buffer together with an allocation heap:
each `Rc::new` in the source allocates a fresh cell, and a `Handle` is the
index (allocation identity) of that cell, so `Rc::ptr_eq` becomes equality
of handles. Callbacks that can panic (`elem_name` on a non-element,
`append_before_sibling` which is `unimplemented!`) return `Option`;
all other callbacks are plain functions on the state.
-/

namespace Dissolve

/-- The `NodeData` enum of the source: `Document`, `Comment`,
`ProcessingInstruction`, `Element { name: QualName }`. The qualified name
is modelled as a `String` (the sink never inspects its structure). -/
inductive NodeData where
  | document
  | comment
  | processingInstruction
  | element (name : String)
deriving DecidableEq, Repr

/-- A node handle: the allocation identity of an `Rc<Node>`.  Distinct
allocations get distinct indices, so handle equality is `Rc::ptr_eq`. -/
abbrev Handle := Nat

/-- The `QuirksMode` enum of html5ever (the sink ignores it). -/
inductive QuirksMode where
  | quirks
  | limitedQuirks
  | noQuirks
deriving DecidableEq, Repr

/-- An attribute `name=value` pair (the sink discards attributes). -/
abbrev Attribute := String × String

/-- The `ElementFlags` argument of html5ever (the sink discards it). -/
structure ElementFlags where
  template : Bool
  mathmlIntegrationPoint : Bool
deriving DecidableEq, Repr

/-- The `NodeOrText` payload type of html5ever: the payload of the append callbacks. -/
inductive NodeOrText where
  | appendNode (h : Handle)
  | appendText (t : String)
deriving DecidableEq, Repr

/-- The sink state: the `text: RefCell<String>` buffer of the Rust
`TextOnly` struct, together with the heap of `Rc<Node>` allocations made
so far (cell `i` of `nodes` is the `NodeData` of the node whose
allocation identity is `i`). -/
structure TextOnly where
  text : String
  nodes : List NodeData
deriving DecidableEq, Repr

/-- Rust `TextOnly::default()`: empty text buffer, nothing allocated yet. -/
def TextOnly.default : TextOnly := { text := "", nodes := [] }

/-- Rust `Rc::new(Node { data })`: allocate a fresh node cell and return the new
state together with the fresh handle. -/
def TextOnly.alloc (s : TextOnly) (d : NodeData) : TextOnly × Handle :=
  ({ s with nodes := s.nodes ++ [d] }, s.nodes.length)

/-- Dereference a handle: the `NodeData` stored at that allocation, if the
handle was ever allocated. -/
def TextOnly.lookup (s : TextOnly) (h : Handle) : Option NodeData :=
  s.nodes.get? h

/-- Rust `fn finish(self) -> String { self.text.into_inner() }` -/
def TextOnly.finish (s : TextOnly) : String :=
  s.text

/-- Rust `fn parse_error(&self, _msg) {}` — a no-op. -/
def TextOnly.parse_error (s : TextOnly) (_msg : String) : TextOnly :=
  s

/-- Rust `fn get_document(&self) -> Handle { Node::new(NodeData::Document) }` -/
def TextOnly.get_document (s : TextOnly) : TextOnly × Handle :=
  s.alloc .document

/-- Rust `fn elem_name(&self, target)`: returns the stored name of an
`Element`, and panics (`none`) on every other variant. -/
def TextOnly.elem_name (s : TextOnly) (target : Handle) : Option String :=
  match s.lookup target with
  | some (.element name) => some name
  | _ => none

/-- Rust `fn create_element(&self, name, _attrs, _flags)`: allocates a fresh
`Element` node capturing only the name. -/
def TextOnly.create_element (s : TextOnly) (name : String)
    (_attrs : List Attribute) (_flags : ElementFlags) : TextOnly × Handle :=
  s.alloc (.element name)

/-- Rust `fn create_comment(&self, _text)`: allocates a fresh `Comment` node,
discarding the text. -/
def TextOnly.create_comment (s : TextOnly) (_text : String) : TextOnly × Handle :=
  s.alloc .comment

/-- Rust `fn create_pi(&self, _target, _data)`: allocates a fresh
`ProcessingInstruction` node, discarding both payloads. -/
def TextOnly.create_pi (s : TextOnly) (_target _data : String) : TextOnly × Handle :=
  s.alloc .processingInstruction

/-- Rust `fn append_doctype_to_document(&self, _name, _public_id, _system_id) {}`
— a no-op. -/
def TextOnly.append_doctype_to_document (s : TextOnly)
    (_name _publicId _systemId : String) : TextOnly :=
  s

/-- Rust `fn append(&self, _parent, child)`: pushes a text payload onto the
buffer, ignores a node payload. -/
def TextOnly.append (s : TextOnly) (_parent : Handle) (child : NodeOrText) : TextOnly :=
  match child with
  | .appendText t => { s with text := s.text ++ t }
  | .appendNode _ => s

/-- Rust `fn append_based_on_parent_node(&self, _element, _prev_element, child)`:
identical text handling to `append`. -/
def TextOnly.append_based_on_parent_node (s : TextOnly)
    (_element _prevElement : Handle) (child : NodeOrText) : TextOnly :=
  match child with
  | .appendText t => { s with text := s.text ++ t }
  | .appendNode _ => s

/-- Rust `fn append_before_sibling(&self, _sibling, _new_node)`: the source body
is `unimplemented!("Please fill an issue.")`, a panic on every input. -/
def TextOnly.append_before_sibling (_s : TextOnly) (_sibling : Handle)
    (_newNode : NodeOrText) : Option TextOnly :=
  none

/-- Rust `fn get_template_contents(&self, _target)`: allocates a fresh
`Document` node. -/
def TextOnly.get_template_contents (s : TextOnly) (_target : Handle) :
    TextOnly × Handle :=
  s.alloc .document

/-- Rust `fn same_node(&self, x, y) { Rc::ptr_eq(x, y) }`: reference identity,
i.e. equality of allocation indices in this model. -/
def TextOnly.same_node (_s : TextOnly) (x y : Handle) : Bool :=
  x == y

/-- Rust `fn set_quirks_mode(&self, _mode) {}` — a no-op. -/
def TextOnly.set_quirks_mode (s : TextOnly) (_mode : QuirksMode) : TextOnly :=
  s

/-- Rust `fn add_attrs_if_missing(&self, _target, _attrs) {}` — a no-op. -/
def TextOnly.add_attrs_if_missing (s : TextOnly) (_target : Handle)
    (_attrs : List Attribute) : TextOnly :=
  s

/-- Rust `fn remove_from_parent(&self, _target) {}` — a no-op. -/
def TextOnly.remove_from_parent (s : TextOnly) (_target : Handle) : TextOnly :=
  s

/-- Rust `fn reparent_children(&self, _node, _new_parent) {}` — a no-op. -/
def TextOnly.reparent_children (s : TextOnly) (_node _newParent : Handle) : TextOnly :=
  s

/-- One callback invocation as the external parser would issue it: each
constructor carries exactly the arguments of the corresponding `TreeSink`
method of the source. -/
inductive Event where
  | getDocument
  | createElement (name : String) (attrs : List Attribute) (flags : ElementFlags)
  | createComment (text : String)
  | createPi (target data : String)
  | appendDoctype (name publicId systemId : String)
  | append (parent : Handle) (child : NodeOrText)
  | appendBasedOnParentNode (element prevElement : Handle) (child : NodeOrText)
  | appendBeforeSibling (sibling : Handle) (child : NodeOrText)
  | getTemplateContents (target : Handle)
  | sameNode (x y : Handle)
  | setQuirksMode (mode : QuirksMode)
  | addAttrsIfMissing (target : Handle) (attrs : List Attribute)
  | removeFromParent (target : Handle)
  | reparentChildren (node newParent : Handle)
  | parseError (msg : String)
  | elemName (target : Handle)
deriving DecidableEq, Repr

/-- Dispatch one callback on the sink state: `none` exactly when the Rust
method panics. Query callbacks (`same_node`, `elem_name`) leave the state
unchanged; handle-returning callbacks keep the updated heap. -/
def applyEvent (s : TextOnly) : Event → Option TextOnly
  | .getDocument => some s.get_document.1
  | .createElement name attrs flags => some (s.create_element name attrs flags).1
  | .createComment t => some (s.create_comment t).1
  | .createPi t d => some (s.create_pi t d).1
  | .appendDoctype n p sy => some (s.append_doctype_to_document n p sy)
  | .append p c => some (s.append p c)
  | .appendBasedOnParentNode e pe c => some (s.append_based_on_parent_node e pe c)
  | .appendBeforeSibling sib c => s.append_before_sibling sib c
  | .getTemplateContents t => some (s.get_template_contents t).1
  | .sameNode _ _ => some s
  | .setQuirksMode m => some (s.set_quirks_mode m)
  | .addAttrsIfMissing t a => some (s.add_attrs_if_missing t a)
  | .removeFromParent t => some (s.remove_from_parent t)
  | .reparentChildren a b => some (s.reparent_children a b)
  | .parseError m => some (s.parse_error m)
  | .elemName h => match s.elem_name h with
    | some _ => some s
    | none => none

/-- The text payload an event contributes to the buffer: `some t` exactly
for the two text-append callbacks with a text payload. -/
def Event.textPayload : Event → Option String
  | .append _ (.appendText t) => some t
  | .appendBasedOnParentNode _ _ (.appendText t) => some t
  | _ => none

/-- Run the sink over a whole callback trace; `none` if any callback
panics along the way. -/
def run (s : TextOnly) : List Event → Option TextOnly
  | [] => some s
  | e :: evs =>
    match applyEvent s e with
    | some s' => run s' evs
    | none => none

/-- Concatenation of a list of strings, in order. -/
def textConcat : List String → String
  | [] => ""
  | t :: ts => t ++ textConcat ts

/-- The text payloads delivered by a trace, in callback order. -/
def textPayloads (evs : List Event) : List String :=
  evs.filterMap Event.textPayload

/-- Modelled from the spec: `strip_html_tags` (src lines 17-20) feeds the
input to the external html5ever parser, which drives `TextOnly::default()`
through a sequence of callbacks and finishes the sink. The parser itself
is out of scope ("treated as an external collaborator" with a documented
callback contract), so it is modelled by the callback trace it emits:
`strip_html_tags` is running the default sink over that trace and
finishing, `none` if some callback panics. -/
def strip_html_tags (trace : List Event) : Option String :=
  (run TextOnly.default trace).map TextOnly.finish

/-- Modelled from the spec: the callback trace the external html5ever
parser emits for the input
`"<html>a<table> b<tr> <td>c</td> </tr>d </table>e"` wrapped in html tags.
Per the spec's upstream contract the parser delivers text callbacks in
final document order; the text runs that appear inside the table but
outside cells (`" b"`, the inter-tag spaces and `"d "`) are
foster-parented and arrive through `append_based_on_parent_node`, the
rest through plain `append`. Handles follow allocation order: 0 document,
1 html, 2 head, 3 body, 4 table, 5 tbody, 6 tr, 7 td. -/
def tableTrace : List Event :=
  [ .getDocument,
    .createElement "html" [] ⟨false, false⟩,
    .append 0 (.appendNode 1),
    .createElement "head" [] ⟨false, false⟩,
    .append 1 (.appendNode 2),
    .createElement "body" [] ⟨false, false⟩,
    .append 1 (.appendNode 3),
    .append 3 (.appendText "a"),
    .createElement "table" [] ⟨false, false⟩,
    .append 3 (.appendNode 4),
    .appendBasedOnParentNode 4 3 (.appendText " b"),
    .createElement "tbody" [] ⟨false, false⟩,
    .append 4 (.appendNode 5),
    .createElement "tr" [] ⟨false, false⟩,
    .append 5 (.appendNode 6),
    .appendBasedOnParentNode 6 5 (.appendText " "),
    .createElement "td" [] ⟨false, false⟩,
    .append 6 (.appendNode 7),
    .append 7 (.appendText "c"),
    .appendBasedOnParentNode 6 7 (.appendText " "),
    .appendBasedOnParentNode 4 5 (.appendText "d "),
    .append 3 (.appendText "e") ]

/-! ### Helper lemmas -/

theorem string_append_assoc (a b c : String) : a ++ b ++ c = a ++ (b ++ c) := by
  apply String.ext
  simp

theorem applyEvent_text (s : TextOnly) (e : Event) (s' : TextOnly)
    (h : applyEvent s e = some s') :
    s'.text = s.text ++ (e.textPayload).getD "" := by
  cases e with
  | append p c =>
      simp only [applyEvent, Option.some.injEq] at h
      subst h
      cases c <;> simp [TextOnly.append, Event.textPayload, String.append_empty]
  | appendBasedOnParentNode a b c =>
      simp only [applyEvent, Option.some.injEq] at h
      subst h
      cases c <;>
        simp [TextOnly.append_based_on_parent_node, Event.textPayload,
          String.append_empty]
  | appendBeforeSibling sib c =>
      simp [applyEvent, TextOnly.append_before_sibling] at h
  | elemName t =>
      cases hq : s.elem_name t <;>
        simp_all [applyEvent, Event.textPayload, String.append_empty]
  | _ =>
      simp only [applyEvent, TextOnly.get_document, TextOnly.create_element,
        TextOnly.create_comment, TextOnly.create_pi,
        TextOnly.append_doctype_to_document, TextOnly.get_template_contents,
        TextOnly.set_quirks_mode, TextOnly.add_attrs_if_missing,
        TextOnly.remove_from_parent, TextOnly.reparent_children,
        TextOnly.parse_error, TextOnly.alloc, Option.some.injEq] at h
      subst h
      simp [Event.textPayload, String.append_empty]

theorem run_text (evs : List Event) : ∀ (s s' : TextOnly),
    run s evs = some s' → s'.text = s.text ++ textConcat (textPayloads evs) := by
  induction evs with
  | nil =>
      intro s s' h
      simp only [run, Option.some.injEq] at h
      subst h
      simp [textPayloads, textConcat, String.append_empty]
  | cons e evs ih =>
      intro s s' h
      cases heq : applyEvent s e with
      | none => simp [run, heq] at h
      | some s₁ =>
          simp only [run, heq] at h
          have h1 := applyEvent_text s e s₁ heq
          have h2 := ih s₁ s' h
          rw [h2, h1]
          cases hp : e.textPayload with
          | none =>
              simp [textPayloads, List.filterMap_cons, hp, String.append_empty]
          | some t =>
              simp [textPayloads, List.filterMap_cons, hp, textConcat,
                string_append_assoc]

theorem elem_name_eq_none_iff (s : TextOnly) (h : Handle) :
    s.elem_name h = none ↔ ∀ n, s.lookup h ≠ some (.element n) := by
  cases hl : s.lookup h with
  | none => simp [TextOnly.elem_name, hl]
  | some d => cases d <;> simp [TextOnly.elem_name, hl]

theorem elem_name_some_lookup (s : TextOnly) (t : Handle) (n : String)
    (hq : s.elem_name t = some n) : s.lookup t = some (.element n) := by
  cases hl : s.lookup t with
  | none => simp [TextOnly.elem_name, hl] at hq
  | some d =>
      cases d with
      | element name =>
          simp [TextOnly.elem_name, hl] at hq
          rw [hq]
      | document => simp [TextOnly.elem_name, hl] at hq
      | comment => simp [TextOnly.elem_name, hl] at hq
      | processingInstruction => simp [TextOnly.elem_name, hl] at hq

theorem lookup_alloc_fresh (s : TextOnly) (d : NodeData) :
    (s.alloc d).1.lookup (s.alloc d).2 = some d ∧ s.lookup (s.alloc d).2 = none := by
  constructor
  · simp [TextOnly.alloc, TextOnly.lookup, List.get?_eq_getElem?,
      List.getElem?_concat_length]
  · simp [TextOnly.alloc, TextOnly.lookup, List.get?_eq_none]

theorem alloc_handle_ne (s : TextOnly) (d : NodeData) (h : Handle)
    (hh : s.lookup h ≠ none) : (s.alloc d).2 ≠ h := by
  intro hc
  apply hh
  rw [← hc]
  exact (lookup_alloc_fresh s d).2

/-! ### Claim theorems -/

/-- C1: for every text payload `t` and any parent/sibling handles, both
`append` and `append_based_on_parent_node` push `t` verbatim onto the end
of the shared text buffer, and when the payload is a node handle both
callbacks leave the text buffer unchanged (in fact the whole state). -/
theorem append_callbacks_push_text_verbatim (s : TextOnly)
    (parent element prevElement nodeHandle : Handle) (t : String) :
    (s.append parent (.appendText t)).text = s.text ++ t
    ∧ (s.append_based_on_parent_node element prevElement (.appendText t)).text
        = s.text ++ t
    ∧ s.append parent (.appendNode nodeHandle) = s
    ∧ s.append_based_on_parent_node element prevElement (.appendNode nodeHandle) = s :=
  ⟨rfl, rfl, rfl, rfl⟩

/-- C2: the text buffer is append-only. For every callback invocation that
returns (does not panic), the new buffer is the old buffer followed by the
event's text payload, which is empty unless the event is one of the two
text-append callbacks with a text payload; in particular the old buffer is
a prefix of the new one and only the text-append family extends it. -/
theorem text_buffer_append_only (s : TextOnly) (e : Event) (s' : TextOnly)
    (h : applyEvent s e = some s') :
    s'.text = s.text ++ (e.textPayload).getD ""
    ∧ (e.textPayload = none → s'.text = s.text) := by
  have h1 := applyEvent_text s e s' h
  refine ⟨h1, fun hp => ?_⟩
  rw [h1, hp]
  exact String.append_empty s.text

/-- Witness for C2 at a concrete state and event. -/
theorem text_buffer_append_only_witness :
    (TextOnly.default.append 0 (.appendText "hi")).text
        = TextOnly.default.text ++ ((Event.append 0 (.appendText "hi")).textPayload).getD ""
    ∧ ((Event.append 0 (.appendText "hi")).textPayload = none →
        (TextOnly.default.append 0 (.appendText "hi")).text = TextOnly.default.text) :=
  text_buffer_append_only TextOnly.default (.append 0 (.appendText "hi"))
    (TextOnly.default.append 0 (.appendText "hi")) rfl

/-- C3: `finish` consumes the sink and returns exactly the accumulated
buffer, which for a whole parse (a run from the default sink over the
callback trace) is the concatenation, in callback order, of all text
payloads delivered through the append callbacks. -/
theorem finish_returns_text_in_callback_order (evs : List Event) (s' : TextOnly)
    (h : run TextOnly.default evs = some s') :
    s'.finish = textConcat (textPayloads evs) := by
  have h1 := run_text evs TextOnly.default s' h
  rw [TextOnly.finish, h1]
  apply String.ext
  simp [TextOnly.default]

/-- Witness for C3 on a concrete two-event trace. -/
theorem finish_returns_text_in_callback_order_witness :
    ({ text := "ab", nodes := [NodeData.comment] } : TextOnly).finish
      = textConcat (textPayloads
          [Event.append 0 (.appendText "ab"), Event.createComment "x"]) :=
  finish_returns_text_in_callback_order
    [Event.append 0 (.appendText "ab"), Event.createComment "x"]
    { text := "ab", nodes := [NodeData.comment] } (by decide)

/-- C4: `elem_name` returns the stored name exactly for `Element` nodes —
in particular it returns `name` on the handle just produced by
`create_element name attrs flags` — and panics (`none`) on every
`Document`, `Comment` or `ProcessingInstruction` node. -/
theorem elem_name_resolves_only_elements (s : TextOnly) :
    (∀ (name : String) (attrs : List Attribute) (flags : ElementFlags),
        (s.create_element name attrs flags).1.elem_name
          (s.create_element name attrs flags).2 = some name)
    ∧ (∀ (h : Handle) (n : String),
        s.lookup h = some (.element n) → s.elem_name h = some n)
    ∧ (∀ h : Handle,
        s.lookup h = some .document ∨ s.lookup h = some .comment ∨
          s.lookup h = some .processingInstruction →
        s.elem_name h = none) := by
  refine ⟨?_, ?_, ?_⟩
  · intro name attrs flags
    have := (lookup_alloc_fresh s (.element name)).1
    simp only [TextOnly.create_element]
    rw [TextOnly.elem_name, this]
  · intro h n hl
    rw [TextOnly.elem_name, hl]
  · intro h hl
    rcases hl with hl | hl | hl <;> rw [TextOnly.elem_name, hl]

/-- Witness for C4: a created element resolves to its name, and a comment
node panics. -/
theorem elem_name_resolves_only_elements_witness :
    (TextOnly.default.create_element "div" [] ⟨false, false⟩).1.elem_name
        (TextOnly.default.create_element "div" [] ⟨false, false⟩).2 = some "div"
    ∧ ({ text := "", nodes := [NodeData.comment] } : TextOnly).elem_name 0 = none :=
  ⟨(elem_name_resolves_only_elements TextOnly.default).1 "div" [] ⟨false, false⟩,
   (elem_name_resolves_only_elements
      { text := "", nodes := [NodeData.comment] }).2.2 0 (Or.inr (Or.inl rfl))⟩

/-- C5: `append_before_sibling` fails fatally (panics, modelled as `none`)
for every sibling handle and every payload, node or text; it never
appends to the buffer and never silently drops a payload. -/
theorem append_before_sibling_fails_loudly (s : TextOnly) (sibling : Handle)
    (newNode : NodeOrText) :
    s.append_before_sibling sibling newNode = none :=
  rfl

/-- C6: the structural no-op callbacks — `append_doctype_to_document`,
`set_quirks_mode`, `add_attrs_if_missing`, `remove_from_parent`,
`reparent_children` and `parse_error` — return the sink state unchanged
for every argument value. -/
theorem structural_callbacks_are_noops (s : TextOnly)
    (name publicId systemId msg : String) (mode : QuirksMode)
    (target node newParent : Handle) (attrs : List Attribute) :
    s.append_doctype_to_document name publicId systemId = s
    ∧ s.set_quirks_mode mode = s
    ∧ s.add_attrs_if_missing target attrs = s
    ∧ s.remove_from_parent target = s
    ∧ s.reparent_children node newParent = s
    ∧ s.parse_error msg = s :=
  ⟨rfl, rfl, rfl, rfl, rfl, rfl⟩

/-- C7: `get_document` and `get_template_contents` each return a freshly
allocated `Document`-variant node: the returned handle dereferences to
`Document` in the new state, was unallocated before the call, and differs
from every handle allocated (hence every handle previously returned) in
the pre-state. -/
theorem fresh_document_nodes (s : TextOnly) (target : Handle) :
    (s.get_document.1.lookup s.get_document.2 = some .document
      ∧ s.lookup s.get_document.2 = none
      ∧ ∀ h : Handle, s.lookup h ≠ none → s.get_document.2 ≠ h)
    ∧ ((s.get_template_contents target).1.lookup
          (s.get_template_contents target).2 = some .document
      ∧ s.lookup (s.get_template_contents target).2 = none
      ∧ ∀ h : Handle, s.lookup h ≠ none →
          (s.get_template_contents target).2 ≠ h) :=
  ⟨⟨(lookup_alloc_fresh s .document).1, (lookup_alloc_fresh s .document).2,
      fun h hh => alloc_handle_ne s .document h hh⟩,
   ⟨(lookup_alloc_fresh s .document).1, (lookup_alloc_fresh s .document).2,
      fun h hh => alloc_handle_ne s .document h hh⟩⟩

/-- Witness for C7 at a concrete state with one prior allocation. -/
theorem fresh_document_nodes_witness :
    ({ text := "", nodes := [NodeData.comment] } : TextOnly).get_document.1.lookup
        ({ text := "", nodes := [NodeData.comment] } : TextOnly).get_document.2
      = some .document
    ∧ ({ text := "", nodes := [NodeData.comment] } : TextOnly).get_document.2 ≠ 0 :=
  ⟨(fresh_document_nodes { text := "", nodes := [NodeData.comment] } 0).1.1,
   (fresh_document_nodes { text := "", nodes := [NodeData.comment] } 0).1.2.2 0
      (by decide)⟩

/-- C8: `same_node` is reference identity: it returns `true` exactly when
the two handles are the same allocation, and any freshly allocated handle
(every creation callback allocates through `alloc`) compares `false`
against every handle allocated earlier, whatever data the nodes carry. -/
theorem same_node_reference_identity (s : TextOnly) :
    (∀ x y : Handle, s.same_node x y = true ↔ x = y)
    ∧ (∀ (d : NodeData) (h : Handle), s.lookup h ≠ none →
        s.same_node (s.alloc d).2 h = false ∧ (s.alloc d).2 ≠ h) := by
  refine ⟨fun x y => ?_, fun d h hh => ?_⟩
  · simp [TextOnly.same_node]
  · have hne := alloc_handle_ne s d h hh
    exact ⟨by simp [TextOnly.same_node, hne], hne⟩

/-- Witness for C8 at concrete handles: a fresh allocation is not the same
node as the previously allocated handle 0, while a handle equals itself. -/
theorem same_node_reference_identity_witness :
    (TextOnly.default.same_node 5 5 = true ↔ 5 = 5)
    ∧ (({ text := "", nodes := [NodeData.comment] } : TextOnly).same_node
          (({ text := "", nodes := [NodeData.comment] } : TextOnly).alloc .document).2 0
        = false
      ∧ (({ text := "", nodes := [NodeData.comment] } : TextOnly).alloc .document).2 ≠ 0) :=
  ⟨(same_node_reference_identity TextOnly.default).1 5 5,
   (same_node_reference_identity { text := "", nodes := [NodeData.comment] }).2
      .document 0 (by decide)⟩

/-- C10: the dispatch of any callback panics exactly in two situations:
`elem_name` on a handle that does not dereference to an `Element`, and
`append_before_sibling` on any arguments whatsoever; every other callback
returns for all possible arguments. -/
theorem callbacks_total_except_documented_panics (s : TextOnly) (e : Event) :
    applyEvent s e = none ↔
      ((∃ h, e = .elemName h ∧ ∀ n, s.lookup h ≠ some (.element n))
        ∨ ∃ sibling c, e = .appendBeforeSibling sibling c) := by
  cases e with
  | appendBeforeSibling sib c =>
      simp [applyEvent, TextOnly.append_before_sibling]
  | elemName t =>
      cases hq : s.elem_name t with
      | none =>
          have hp := (elem_name_eq_none_iff s t).mp hq
          simp [applyEvent, hq, hp]
      | some n =>
          have hl := elem_name_some_lookup s t n hq
          refine iff_of_false (by simp [applyEvent, hq]) ?_
          rintro (⟨h', heq, hall⟩ | ⟨a, c, hc⟩)
          · cases heq
            exact hall n hl
          · exact Event.noConfusion hc
  | _ => simp [applyEvent]

/-- C9: end-to-end on the table input, text order is preserved and no text
is lost under foster parenting: running the sink over the trace the parser
emits for `"<html>a<table> b<tr> <td>c</td> </tr>d </table>e</html>"`
yields exactly `"a b c d e"`. -/
theorem strip_table_preserves_text_order :
    strip_html_tags tableTrace = some "a b c d e" := by
  decide

end Dissolve
